import Mathlib

/-!
Verification of the DeskBank account-ledger core.

This file shallowly embeds the money-movement core of the DeskBank
application: the `Transaction` and `Account` models
(`deskbank/models/transaction.py`, `deskbank/models/account.py`), the
generic repository persistence layer
(`deskbank/repositories/base_repository.py`,
`deskbank/repositories/account_repository.py`) and the transfer
orchestration of `deskbank/services/transaction_service.py`.

Modelling conventions:
- Python `Decimal` values and the `float` amounts fed to them are modelled
  as rationals (`ℚ`); `Decimal(str(x)).quantize(Decimal('0.01'),
  ROUND_HALF_UP)` is `quantize2` below (round half away from zero to a
  whole number of cents).  `float(decimal)` followed by
  `Decimal(str(float))` round-trips exactly on 2-decimal values of the
  magnitudes the application handles, so it is modelled as the identity on
  the rational value.
- `uuid4()` identifiers (`transactionId`, the generated part of
  `accountNumber`) are drawn from the environment and never inspected by
  the properties below; the account number is passed to the constructor as
  a parameter and the transaction id is omitted from the record.
- `datetime.now()` is modelled by an explicit `now : ℕ` argument to each
  mutator.
- Python exceptions (`ValueError` with distinguishing messages) are
  modelled by the typed error `Err`; each method returns its
  `Except Err _` outcome together with the state of the touched objects at
  the moment of return, so that "raises before mutating" is a provable
  statement rather than a convention.
-/

/-- Typed failures of the ledger core, one per distinct raise site family
(the Python code raises `ValueError` with distinguishing messages; the
names follow the spec's taxonomy in section 7). -/
inductive Err where
  | inactiveAccount
  | invalidAmount
  | insufficientFunds
  | sameAccount
  | accountNotFound
  | accountInactive
deriving Repr, DecidableEq

/-- Normalization of an amount to a whole number of cents:
`Decimal(str(q)).quantize(Decimal('0.01'), rounding=ROUND_HALF_UP)`,
with `ROUND_HALF_UP` rounding ties away from zero. -/
def quantizeCents (q : ℚ) : ℤ :=
  if 0 ≤ q then ⌊q * 100 + 1 / 2⌋ else -⌊-q * 100 + 1 / 2⌋

/-- Normalization of an amount to two decimal places, as a rational. -/
def quantize2 (q : ℚ) : ℚ :=
  (quantizeCents q : ℚ) / 100

/-- Rendering of a nonnegative 2-decimal amount used in default
transaction descriptions (Python `f"{amount:.2f}"` on the quantized
amount). -/
def moneyStr (q : ℚ) : String :=
  let c := (quantizeCents q).natAbs
  (if quantizeCents q < 0 then "-" else "")
    ++ toString (c / 100) ++ "."
    ++ (if c % 100 < 10 then "0" else "") ++ toString (c % 100)

/-- Embedding of `Transaction` (`deskbank/models/transaction.py`): type,
amount (the float written by the mutators, always a quantized value),
timestamp, owning account number and description.  The `uuid4`-generated
`transactionId` is environment-drawn and unused by every property here,
so it is omitted. -/
structure Txn where
  type : String
  amount : ℚ
  timestamp : ℕ
  account_number : String
  description : String
deriving Repr, DecidableEq

/-- Embedding of `Transaction.__init__`: fields are stored as given and a
missing description defaults to `"<type> of $<amount>"`. -/
def Txn.init (transaction_type : String) (amount : ℚ) (account_number : String)
    (description : Option String) (now : ℕ) : Txn :=
  { type := transaction_type
    amount := amount
    timestamp := now
    account_number := account_number
    description := description.getD (transaction_type ++ " of $" ++ moneyStr amount) }

/-- Embedding of `Account` (`deskbank/models/account.py`). -/
structure Account where
  accountNumber : String
  balance : ℚ
  account_type : String
  owner_id : Option String
  transactions : List Txn
  is_active : Bool
deriving Repr, DecidableEq

/-- Embedding of `Account.__init__`: the generated account number is
passed as a parameter (it comes from `uuid4`), the initial balance is
quantized to two decimals, the log starts empty and the account starts
active. -/
def Account.init (accountNumber : String) (balance : ℚ) (account_type : String)
    (owner_id : Option String) : Account :=
  { accountNumber := accountNumber
    balance := quantize2 balance
    account_type := account_type
    owner_id := owner_id
    transactions := []
    is_active := true }

/-- Embedding of `Account.deposit`.  The pair holds the call's outcome and
the state of the account when the call returns (on an error path the
checks all precede any mutation, so the account is returned unchanged). -/
def Account.deposit (a : Account) (amount : ℚ) (description : Option String)
    (now : ℕ) : Except Err Txn × Account :=
  if a.is_active = false then (.error .inactiveAccount, a)
  else if amount ≤ 0 then (.error .invalidAmount, a)
  else
    let amount_decimal := quantize2 amount
    let transaction := Txn.init "Deposit" amount_decimal a.accountNumber description now
    (.ok transaction,
      { a with balance := a.balance + amount_decimal
               transactions := a.transactions ++ [transaction] })

/-- Embedding of `Account.withdraw`. -/
def Account.withdraw (a : Account) (amount : ℚ) (description : Option String)
    (now : ℕ) : Except Err Txn × Account :=
  if a.is_active = false then (.error .inactiveAccount, a)
  else if amount ≤ 0 then (.error .invalidAmount, a)
  else
    let amount_decimal := quantize2 amount
    if a.balance < amount_decimal then (.error .insufficientFunds, a)
    else
      let transaction := Txn.init "Withdrawal" amount_decimal a.accountNumber description now
      (.ok transaction,
        { a with balance := a.balance - amount_decimal
                 transactions := a.transactions ++ [transaction] })

/-- Embedding of `Account.transfer_to` for the case where source and
destination are distinct objects: the triple holds the outcome and both
accounts' states at return. -/
def Account.transfer_to (a to_account : Account) (amount : ℚ)
    (description : Option String) (now : ℕ) : Except Err Txn × Account × Account :=
  if a.is_active = false ∨ to_account.is_active = false then
    (.error .inactiveAccount, a, to_account)
  else if amount ≤ 0 then (.error .invalidAmount, a, to_account)
  else
    let amount_decimal := quantize2 amount
    if a.balance < amount_decimal then (.error .insufficientFunds, a, to_account)
    else
      let out_transaction := Txn.init "Transfer Out" amount_decimal a.accountNumber
        (some (description.getD ("Transfer to " ++ to_account.accountNumber))) now
      let a' := { a with balance := a.balance - amount_decimal
                         transactions := a.transactions ++ [out_transaction] }
      let in_transaction := Txn.init "Transfer In" amount_decimal to_account.accountNumber
        (some (description.getD ("Transfer from " ++ a.accountNumber))) now
      let to' := { to_account with
                     balance := to_account.balance + amount_decimal
                     transactions := to_account.transactions ++ [in_transaction] }
      (.ok out_transaction, a', to')

/-- Embedding of `Account.transfer_to` in the aliased case
`a.transfer_to(a, ...)`: both `self` and `to_account` are the same object,
so the debit, the credit and both appends land on one account, in the
order the Python statements execute. -/
def Account.transfer_to_self (a : Account) (amount : ℚ)
    (description : Option String) (now : ℕ) : Except Err Txn × Account :=
  if a.is_active = false then (.error .inactiveAccount, a)
  else if amount ≤ 0 then (.error .invalidAmount, a)
  else
    let amount_decimal := quantize2 amount
    if a.balance < amount_decimal then (.error .insufficientFunds, a)
    else
      let out_transaction := Txn.init "Transfer Out" amount_decimal a.accountNumber
        (some (description.getD ("Transfer to " ++ a.accountNumber))) now
      let a1 := { a with balance := a.balance - amount_decimal
                         transactions := a.transactions ++ [out_transaction] }
      let in_transaction := Txn.init "Transfer In" amount_decimal a1.accountNumber
        (some (description.getD ("Transfer from " ++ a.accountNumber))) now
      let a2 := { a1 with balance := a1.balance + amount_decimal
                          transactions := a1.transactions ++ [in_transaction] }
      (.ok out_transaction, a2)

/-- Embedding of `Account.deactivate`. -/
def Account.deactivate (a : Account) : Account :=
  { a with is_active := false }

/-- Embedding of `Account.activate`. -/
def Account.activate (a : Account) : Account :=
  { a with is_active := true }

/-- Comparison passed to Python's stable sort for
`sorted(..., key=lambda t: t.timestamp, reverse=True)`: descending
timestamps. -/
def tsDesc (t1 t2 : Txn) : Bool :=
  t2.timestamp ≤ t1.timestamp

/-- Semantics of the Python slice `xs[:l]` for an integer `l`: a
nonnegative bound keeps the first `l` elements, a negative bound drops the
last `-l` elements. -/
def pySlice (xs : List Txn) (l : ℤ) : List Txn :=
  if 0 ≤ l then xs.take l.toNat
  else xs.take (xs.length - (-l).toNat)

/-- Embedding of `Account.get_transaction_history`: a stable sort of the
log, newest first, then `sorted_transactions[:limit] if limit else
sorted_transactions` — note that a limit of `0` is falsy in Python, so it
returns the whole list, exactly like `None`. -/
def Account.get_transaction_history (a : Account) (limit : Option ℤ) : List Txn :=
  let sorted_transactions := a.transactions.mergeSort tsDesc
  match limit with
  | some l => if l = 0 then sorted_transactions else pySlice sorted_transactions l
  | none => sorted_transactions

/-- Dictionary form of a `Transaction` as written by `Transaction.to_dict`
(the `transaction_id` entry is omitted, matching the omission in `Txn`;
the ISO-8601 timestamp string round-trips `datetime` exactly and is kept
as the `ℕ` instant). -/
structure TxnDict where
  type : String
  amount : ℚ
  timestamp : ℕ
  account_number : String
  description : String
deriving Repr, DecidableEq

/-- Embedding of `Transaction.to_dict`. -/
def Txn.to_dict (t : Txn) : TxnDict :=
  { type := t.type
    amount := t.amount
    timestamp := t.timestamp
    account_number := t.account_number
    description := t.description }

/-- Embedding of `Transaction.from_dict`: rebuilds via the constructor
(the stored description is always non-`None`, so the constructor default
never fires) and then overwrites the timestamp with the stored one. -/
def Txn.from_dict (d : TxnDict) : Txn :=
  let transaction := Txn.init d.type d.amount d.account_number (some d.description) 0
  { transaction with timestamp := d.timestamp }

/-- Dictionary form of an `Account` as written by `Account.to_dict`. -/
structure AccountDict where
  account_number : String
  balance : ℚ
  account_type : String
  owner_id : Option String
  is_active : Bool
  transactions : List TxnDict
deriving Repr, DecidableEq

/-- Embedding of `Account.to_dict`. -/
def Account.to_dict (a : Account) : AccountDict :=
  { account_number := a.accountNumber
    balance := a.balance
    account_type := a.account_type
    owner_id := a.owner_id
    is_active := a.is_active
    transactions := a.transactions.map Txn.to_dict }

/-- Embedding of `Account.from_dict`: constructs through
`Account.__init__` (which re-quantizes the stored balance; the freshly
generated account number is immediately overwritten by the stored one, so
the generator argument is irrelevant and passed as `""`), then restores
the account number, the active flag and the transaction list. -/
def Account.from_dict (d : AccountDict) : Account :=
  let account := Account.init "" d.balance d.account_type d.owner_id
  { account with
      accountNumber := d.account_number
      is_active := d.is_active
      transactions := d.transactions.map Txn.from_dict }

/-- Embedding of the in-memory state of `BaseRepository[Account]`: the
insertion-ordered dict `self._data` as an association list from key to
account. -/
structure Repo where
  data : List (String × Account)
deriving Repr, DecidableEq

/-- Embedding of `AccountRepository.find_by_account_number`, i.e.
`BaseRepository.get_by_id`: dictionary lookup, never mutates. -/
def Repo.find_by_account_number (r : Repo) (account_number : String) : Option Account :=
  (r.data.find? (fun p => p.1 = account_number)).map Prod.snd

/-- Embedding of `BaseRepository.update` with the account-repository id
extractor (`account.accountNumber`): replace the value at an existing key
and report success, or leave the repository unchanged and report failure.
The dict assignment `self._data[item_id] = item` keeps the key's
position, modelled by an in-place map. -/
def Repo.update (r : Repo) (a : Account) : Repo × Bool :=
  if r.data.any (fun p => p.1 = a.accountNumber) then
    (⟨r.data.map (fun p => if p.1 = a.accountNumber then (p.1, a) else p)⟩, true)
  else (r, false)

/-- Embedding of a successful `BaseRepository.save_data` through the
account repository's serializer: the JSON object written to disk, as an
association list from key to serialized account. -/
def Repo.save_data (r : Repo) : List (String × AccountDict) :=
  r.data.map (fun p => (p.1, p.2.to_dict))

/-- Observable states of the backing file when `load_data` runs: absent,
present but unparseable, or a well-formed JSON object. -/
inductive FileState where
  | missing
  | corrupt
  | good (entries : List (String × AccountDict))
deriving Repr, DecidableEq

/-- Embedding of `BaseRepository.load_data` with the account
deserializer: an absent file returns early leaving `self._data` as it
was; a parse failure is caught and resets `self._data` to empty; a
well-formed file replaces `self._data` with the deserialized mapping.
No path crashes the process. -/
def Repo.load_data (r : Repo) (f : FileState) : Repo :=
  match f with
  | .missing => r
  | .corrupt => ⟨[]⟩
  | .good entries => ⟨entries.map (fun p => (p.1, Account.from_dict p.2))⟩

/-- Embedding of `TransactionService.transfer_funds`: the guard sequence
of the Python method (same account, missing sides, inactive sides), then
delegation to `Account.transfer_to` and persistence of both accounts via
`update`.  The returned repository is the service's state at return; every
raise happens before any mutation, so error paths return it unchanged. -/
def transfer_funds (r : Repo) (from_account_number to_account_number : String)
    (amount : ℚ) (description : Option String) (now : ℕ) :
    Except Err Txn × Repo :=
  if from_account_number = to_account_number then (.error .sameAccount, r)
  else
    match r.find_by_account_number from_account_number,
          r.find_by_account_number to_account_number with
    | none, _ => (.error .accountNotFound, r)
    | some _, none => (.error .accountNotFound, r)
    | some from_account, some to_account =>
      if from_account.is_active = false then (.error .accountInactive, r)
      else if to_account.is_active = false then (.error .accountInactive, r)
      else
        match Account.transfer_to from_account to_account amount description now with
        | (.error e, _, _) => (.error e, r)
        | (.ok transaction, from', to') =>
          (.ok transaction, ((r.update from').1.update to').1)

/-- Ways a single account can be touched by one successful public-mutator
call: as depositor, as withdrawer, as the source of a transfer to some
other account, as the destination of a transfer from some other account,
or as both sides of an aliased self-transfer. -/
inductive AccountOp where
  | depositOp (q : ℚ) (d : Option String) (now : ℕ)
  | withdrawOp (q : ℚ) (d : Option String) (now : ℕ)
  | transferOutTo (dst : Account) (q : ℚ) (d : Option String) (now : ℕ)
  | transferInFrom (src : Account) (q : ℚ) (d : Option String) (now : ℕ)
  | transferSelf (q : ℚ) (d : Option String) (now : ℕ)

/-- Effect on one account of one successful public-mutator call, derived
from the embedded methods; `none` when that call would raise. -/
def applyOp (a : Account) (op : AccountOp) : Option Account :=
  match op with
  | .depositOp q d now =>
    match a.deposit q d now with
    | (.ok _, a') => some a'
    | (.error _, _) => none
  | .withdrawOp q d now =>
    match a.withdraw q d now with
    | (.ok _, a') => some a'
    | (.error _, _) => none
  | .transferOutTo dst q d now =>
    match Account.transfer_to a dst q d now with
    | (.ok _, a', _) => some a'
    | (.error _, _, _) => none
  | .transferInFrom src q d now =>
    match Account.transfer_to src a q d now with
    | (.ok _, _, a') => some a'
    | (.error _, _, _) => none
  | .transferSelf q d now =>
    match a.transfer_to_self q d now with
    | (.ok _, a') => some a'
    | (.error _, _) => none

/-- Result of running a sequence of successful mutator calls against one
account; `none` as soon as one of them fails. -/
def runOps (a : Account) : List AccountOp → Option Account
  | [] => some a
  | op :: ops =>
    match applyOp a op with
    | some a' => runOps a' ops
    | none => none

/-- Signed contribution of one transaction record to the reconstructed
balance, as the spec's reconstruction formula reads it: deposits and
transfer-ins add, withdrawals and transfer-outs subtract. -/
def txnEffect (t : Txn) : ℚ :=
  if t.type = "Deposit" ∨ t.type = "Transfer In" then t.amount
  else if t.type = "Withdrawal" ∨ t.type = "Transfer Out" then -t.amount
  else 0

/-- Net effect of a transaction log on the reconstructed balance. -/
def netEffect (ts : List Txn) : ℚ :=
  (ts.map txnEffect).sum

/-- Well-formedness of a repository: every stored account sits under its
own account number, as `add`/`update` keyed by `_get_item_id` maintain. -/
def Repo.Wf (r : Repo) : Prop :=
  ∀ p ∈ r.data, p.2.accountNumber = p.1

theorem quantizeCents_nonneg {q : ℚ} (h : 0 ≤ q) : 0 ≤ quantizeCents q := by
  unfold quantizeCents
  rw [if_pos h]
  exact Int.le_floor.mpr (by push_cast; linarith)

theorem quantizeCents_nonpos {q : ℚ} (h : q ≤ 0) : quantizeCents q ≤ 0 := by
  unfold quantizeCents
  by_cases h0 : 0 ≤ q
  · have hq : q = 0 := le_antisymm h h0
    rw [if_pos h0, hq]
    have : ⌊(0 : ℚ) * 100 + 1 / 2⌋ < 1 := Int.floor_lt.mpr (by norm_num)
    omega
  · rw [if_neg h0]
    have : (0 : ℤ) ≤ ⌊-q * 100 + 1 / 2⌋ := Int.le_floor.mpr (by push_cast; nlinarith)
    omega

theorem pos_of_quantizeCents_pos {q : ℚ} (h : 0 < quantizeCents q) : 0 < q := by
  by_contra hq
  exact absurd (quantizeCents_nonpos (not_lt.mp hq)) (by omega)

theorem one_le_quantizeCents {q : ℚ} (h : 1 / 200 ≤ q) : 1 ≤ quantizeCents q := by
  unfold quantizeCents
  rw [if_pos (by linarith)]
  exact Int.le_floor.mpr (by push_cast; linarith)

theorem quantizeCents_intCast_div (c : ℤ) : quantizeCents ((c : ℚ) / 100) = c := by
  have hfloor : ∀ z : ℤ, ⌊(z : ℚ) + 1 / 2⌋ = z := by
    intro z
    rw [add_comm, Int.floor_add_int]
    norm_num [Int.floor_eq_zero_iff, Set.mem_Ico]
  unfold quantizeCents
  by_cases h : (0 : ℚ) ≤ (c : ℚ) / 100
  · rw [if_pos h, show ((c : ℚ) / 100) * 100 = (c : ℚ) by ring, hfloor]
  · rw [if_neg h, show (-((c : ℚ) / 100)) * 100 = ((-c : ℤ) : ℚ) by push_cast; ring,
      hfloor]
    ring

theorem quantize2_nonneg {q : ℚ} (h : 0 ≤ q) : 0 ≤ quantize2 q := by
  unfold quantize2
  exact div_nonneg (by exact_mod_cast quantizeCents_nonneg h) (by norm_num)

theorem pos_of_quantize2_pos {q : ℚ} (h : 0 < quantize2 q) : 0 < q := by
  apply pos_of_quantizeCents_pos
  by_contra hc
  unfold quantize2 at h
  have : ((quantizeCents q : ℚ)) ≤ 0 := by exact_mod_cast not_lt.mp hc
  linarith

theorem quantize2_pos {q : ℚ} (h : 1 / 200 ≤ q) : 0 < quantize2 q := by
  unfold quantize2
  have := one_le_quantizeCents h
  have : (1 : ℚ) ≤ (quantizeCents q : ℚ) := by exact_mod_cast this
  linarith

theorem quantize2_intCast_div (c : ℤ) : quantize2 ((c : ℚ) / 100) = (c : ℚ) / 100 := by
  unfold quantize2
  rw [quantizeCents_intCast_div]

theorem quantizeCents_intCast (c : ℤ) : quantizeCents (c : ℚ) = 100 * c := by
  have h : ((c : ℚ)) = ((100 * c : ℤ) : ℚ) / 100 := by push_cast; ring
  rw [h, quantizeCents_intCast_div]

theorem quantize2_intCast (c : ℤ) : quantize2 (c : ℚ) = c := by
  unfold quantize2
  rw [quantizeCents_intCast]
  push_cast
  ring

theorem netEffect_append (ts us : List Txn) :
    netEffect (ts ++ us) = netEffect ts + netEffect us := by
  simp [netEffect]

theorem netEffect_singleton (t : Txn) : netEffect [t] = txnEffect t := by
  simp [netEffect]

theorem txnEffect_init_deposit (amt : ℚ) (an : String) (d : Option String) (now : ℕ) :
    txnEffect (Txn.init "Deposit" amt an d now) = amt := by
  simp [txnEffect, Txn.init]

theorem txnEffect_init_withdrawal (amt : ℚ) (an : String) (d : Option String) (now : ℕ) :
    txnEffect (Txn.init "Withdrawal" amt an d now) = -amt := by
  simp [txnEffect, Txn.init]

theorem txnEffect_init_transfer_out (amt : ℚ) (an : String) (d : Option String) (now : ℕ) :
    txnEffect (Txn.init "Transfer Out" amt an d now) = -amt := by
  simp [txnEffect, Txn.init]

theorem txnEffect_init_transfer_in (amt : ℚ) (an : String) (d : Option String) (now : ℕ) :
    txnEffect (Txn.init "Transfer In" amt an d now) = amt := by
  simp [txnEffect, Txn.init]

theorem deposit_ok_shape {a : Account} {q : ℚ} {d : Option String} {now : ℕ}
    {txn : Txn} {a' : Account} (h : a.deposit q d now = (.ok txn, a')) :
    txn = Txn.init "Deposit" (quantize2 q) a.accountNumber d now
    ∧ a' = { a with balance := a.balance + quantize2 q
                    transactions := a.transactions ++ [txn] }
    ∧ a.is_active = true ∧ 0 < q := by
  unfold Account.deposit at h
  split_ifs at h with h1 h2 <;> simp [Prod.ext_iff] at h
  obtain ⟨ht, ha⟩ := h
  exact ⟨ht.symm, by simp [← ha, ht], by simpa using h1, not_le.mp h2⟩

theorem withdraw_ok_shape {a : Account} {q : ℚ} {d : Option String} {now : ℕ}
    {txn : Txn} {a' : Account} (h : a.withdraw q d now = (.ok txn, a')) :
    txn = Txn.init "Withdrawal" (quantize2 q) a.accountNumber d now
    ∧ a' = { a with balance := a.balance - quantize2 q
                    transactions := a.transactions ++ [txn] }
    ∧ a.is_active = true ∧ 0 < q ∧ quantize2 q ≤ a.balance := by
  unfold Account.withdraw at h
  dsimp only at h
  split_ifs at h with h1 h2 h3 <;> simp [Prod.ext_iff] at h
  obtain ⟨ht, ha⟩ := h
  exact ⟨ht.symm, by simp [← ha, ht], by simpa using h1, not_le.mp h2, not_lt.mp h3⟩

theorem transfer_to_ok_shape {a b : Account} {q : ℚ} {d : Option String} {now : ℕ}
    {txn : Txn} {a' b' : Account}
    (h : Account.transfer_to a b q d now = (.ok txn, a', b')) :
    txn = Txn.init "Transfer Out" (quantize2 q) a.accountNumber
            (some (d.getD ("Transfer to " ++ b.accountNumber))) now
    ∧ a' = { a with balance := a.balance - quantize2 q
                    transactions := a.transactions ++ [txn] }
    ∧ b' = { b with balance := b.balance + quantize2 q
                    transactions := b.transactions ++
                      [Txn.init "Transfer In" (quantize2 q) b.accountNumber
                        (some (d.getD ("Transfer from " ++ a.accountNumber))) now] }
    ∧ a.is_active = true ∧ b.is_active = true ∧ 0 < q ∧ quantize2 q ≤ a.balance := by
  unfold Account.transfer_to at h
  dsimp only at h
  split_ifs at h with h1 h2 h3 <;> simp [Prod.ext_iff] at h
  obtain ⟨ht, ha, hb⟩ := h
  push_neg at h1
  exact ⟨ht.symm, by simp [← ha, ht], by simp [← hb],
    by simpa using h1.1, by simpa using h1.2, not_le.mp h2, not_lt.mp h3⟩

theorem transfer_to_self_ok_shape {a : Account} {q : ℚ} {d : Option String} {now : ℕ}
    {txn : Txn} {a' : Account}
    (h : a.transfer_to_self q d now = (.ok txn, a')) :
    txn = Txn.init "Transfer Out" (quantize2 q) a.accountNumber
            (some (d.getD ("Transfer to " ++ a.accountNumber))) now
    ∧ a' = { a with balance := a.balance - quantize2 q + quantize2 q
                    transactions := a.transactions ++
                      [txn,
                       Txn.init "Transfer In" (quantize2 q) a.accountNumber
                        (some (d.getD ("Transfer from " ++ a.accountNumber))) now] }
    ∧ a.is_active = true ∧ 0 < q ∧ quantize2 q ≤ a.balance := by
  unfold Account.transfer_to_self at h
  dsimp only at h
  split_ifs at h with h1 h2 h3 <;> simp [Prod.ext_iff] at h
  obtain ⟨ht, ha⟩ := h
  exact ⟨ht.symm, by simp [← ha, ht], by simpa using h1, not_le.mp h2, not_lt.mp h3⟩

theorem applyOp_delta (a : Account) (op : AccountOp) (a' : Account)
    (h : applyOp a op = some a') :
    a'.balance - netEffect a'.transactions = a.balance - netEffect a.transactions := by
  cases op with
  | depositOp q d now =>
    simp only [applyOp] at h
    cases hd : a.deposit q d now with
    | mk res acct =>
      rw [hd] at h
      cases res with
      | error e => simp at h
      | ok txn =>
        simp at h
        obtain ⟨ht, ha, -, -⟩ := deposit_ok_shape hd
        rw [← h, ha, ht]
        simp [netEffect_append, netEffect_singleton, txnEffect_init_deposit]
        try ring
  | withdrawOp q d now =>
    simp only [applyOp] at h
    cases hd : a.withdraw q d now with
    | mk res acct =>
      rw [hd] at h
      cases res with
      | error e => simp at h
      | ok txn =>
        simp at h
        obtain ⟨ht, ha, -, -, -⟩ := withdraw_ok_shape hd
        rw [← h, ha, ht]
        simp [netEffect_append, netEffect_singleton, txnEffect_init_withdrawal]
        try ring
  | transferOutTo dst q d now =>
    simp only [applyOp] at h
    cases hd : Account.transfer_to a dst q d now with
    | mk res rest =>
      rw [hd] at h
      cases res with
      | error e => simp at h
      | ok txn =>
        simp at h
        obtain ⟨ht, ha, -, -, -, -, -⟩ := transfer_to_ok_shape hd
        rw [← h, ha, ht]
        simp [netEffect_append, netEffect_singleton, txnEffect_init_transfer_out]
        try ring
  | transferInFrom src q d now =>
    simp only [applyOp] at h
    cases hd : Account.transfer_to src a q d now with
    | mk res rest =>
      rw [hd] at h
      cases res with
      | error e => simp at h
      | ok txn =>
        simp at h
        obtain ⟨-, -, hb, -, -, -, -⟩ := transfer_to_ok_shape hd
        rw [← h, hb]
        simp [netEffect_append, netEffect_singleton, txnEffect_init_transfer_in]
        try ring
  | transferSelf q d now =>
    simp only [applyOp] at h
    cases hd : a.transfer_to_self q d now with
    | mk res acct =>
      rw [hd] at h
      cases res with
      | error e => simp at h
      | ok txn =>
        simp at h
        obtain ⟨ht, ha, -, -, -⟩ := transfer_to_self_ok_shape hd
        rw [← h, ha, ht]
        simp [netEffect_append, txnEffect_init_transfer_out,
          txnEffect_init_transfer_in, netEffect]
        try ring

theorem applyOp_balance_nonneg (a : Account) (op : AccountOp) (a' : Account)
    (h0 : 0 ≤ a.balance) (h : applyOp a op = some a') : 0 ≤ a'.balance := by
  cases op with
  | depositOp q d now =>
    simp only [applyOp] at h
    cases hd : a.deposit q d now with
    | mk res acct =>
      rw [hd] at h
      cases res with
      | error e => simp at h
      | ok txn =>
        simp at h
        obtain ⟨-, ha, -, hq⟩ := deposit_ok_shape hd
        rw [← h, ha]
        have := quantize2_nonneg (le_of_lt hq)
        simpa using by linarith
  | withdrawOp q d now =>
    simp only [applyOp] at h
    cases hd : a.withdraw q d now with
    | mk res acct =>
      rw [hd] at h
      cases res with
      | error e => simp at h
      | ok txn =>
        simp at h
        obtain ⟨-, ha, -, -, hle⟩ := withdraw_ok_shape hd
        rw [← h, ha]
        simpa using by linarith
  | transferOutTo dst q d now =>
    simp only [applyOp] at h
    cases hd : Account.transfer_to a dst q d now with
    | mk res rest =>
      rw [hd] at h
      cases res with
      | error e => simp at h
      | ok txn =>
        simp at h
        obtain ⟨-, ha, -, -, -, -, hle⟩ := transfer_to_ok_shape hd
        rw [← h, ha]
        simpa using by linarith
  | transferInFrom src q d now =>
    simp only [applyOp] at h
    cases hd : Account.transfer_to src a q d now with
    | mk res rest =>
      rw [hd] at h
      cases res with
      | error e => simp at h
      | ok txn =>
        simp at h
        obtain ⟨-, -, hb, -, -, hq, -⟩ := transfer_to_ok_shape hd
        rw [← h, hb]
        have := quantize2_nonneg (le_of_lt hq)
        simpa using by linarith
  | transferSelf q d now =>
    simp only [applyOp] at h
    cases hd : a.transfer_to_self q d now with
    | mk res acct =>
      rw [hd] at h
      cases res with
      | error e => simp at h
      | ok txn =>
        simp at h
        obtain ⟨-, ha, -, -, -⟩ := transfer_to_self_ok_shape hd
        rw [← h, ha]
        simpa using by linarith

theorem runOps_preserves {P : Account → Prop}
    (hstep : ∀ a op a', P a → applyOp a op = some a' → P a')
    (ops : List AccountOp) :
    ∀ a a', P a → runOps a ops = some a' → P a' := by
  induction ops with
  | nil =>
    intro a a' hP h
    simp [runOps] at h
    exact h ▸ hP
  | cons op ops ih =>
    intro a a' hP h
    unfold runOps at h
    cases hc : applyOp a op with
    | none => rw [hc] at h; exact absurd h (by simp)
    | some b => rw [hc] at h; exact ih b a' (hstep a op b hP hc) h


/-- C1 (amended): for every account created through `Account.__init__`
with initial balance `b0` and after every sequence of successful
deposit/withdraw/transfer operations, the stored balance equals the
quantized initial balance plus the net effect of the transaction log
(deposits and transfer-ins add, withdrawals and transfer-outs subtract),
exact to the cent.  The claim as frozen omits the initial balance; see
the counterexample. -/
theorem c1_ledger_reconstruction (num : String) (b0 : ℚ) (ty : String)
    (ow : Option String) (ops : List AccountOp) (a' : Account)
    (h : runOps (Account.init num b0 ty ow) ops = some a') :
    a'.balance = quantize2 b0 + netEffect a'.transactions := by
  have hinv :=
    @runOps_preserves (fun a => a.balance - netEffect a.transactions = quantize2 b0)
      (fun a op a' hPa happly => (applyOp_delta a op a' happly).trans hPa)
      ops (Account.init num b0 ty ow) a'
      (by simp [Account.init, netEffect]) h
  linarith

/-- C1 counterexample: an account created with a nonzero initial balance
(`Account(balance=100)`, as `AccountRepository.create_account` does for
every caller-funded account) and the empty operation sequence has
`balance = 100` but a net log effect of `0`, so the stored balance does
not equal the sum computed from the log alone. -/
theorem c1_counterexample :
    runOps (Account.init "A" 100 "Savings" none) []
        = some (Account.init "A" 100 "Savings" none)
    ∧ (Account.init "A" 100 "Savings" none).balance = 100
    ∧ netEffect (Account.init "A" 100 "Savings" none).transactions = 0
    ∧ (Account.init "A" 100 "Savings" none).balance
        ≠ netEffect (Account.init "A" 100 "Savings" none).transactions := by
  have hb : (Account.init "A" 100 "Savings" none).balance = 100 := by
    simp [Account.init]
    norm_num [quantize2, quantizeCents]
  refine ⟨rfl, hb, rfl, ?_⟩
  rw [hb]
  norm_num [Account.init, netEffect]

/-- C1 witness: a concrete account funded at 0 and then deposited into
satisfies the amended reconstruction equation. -/
theorem c1_ledger_reconstruction_witness :
    ({ accountNumber := "A", balance := 100, account_type := "Savings",
       owner_id := none,
       transactions := [{ type := "Deposit", amount := 100, timestamp := 0,
                          account_number := "A", description := "x" }],
       is_active := true } : Account).balance
      = quantize2 0 + netEffect
          ({ accountNumber := "A", balance := 100, account_type := "Savings",
             owner_id := none,
             transactions := [{ type := "Deposit", amount := 100, timestamp := 0,
                                account_number := "A", description := "x" }],
             is_active := true } : Account).transactions :=
  c1_ledger_reconstruction "A" 0 "Savings" none
    [AccountOp.depositOp 100 (some "x") 0] _
    (by simp [runOps, applyOp, Account.deposit, Account.init, Txn.init]
        norm_num [quantize2, quantizeCents])

/-- C2: a successful transfer between two distinct active accounts debits
the source by exactly the normalized amount, credits the destination by
exactly the normalized amount, appends exactly one Transfer Out record of
that amount to the source log and exactly one Transfer In record of that
amount to the destination log, and returns the Transfer Out record. -/
theorem c2_transfer_atomicity (a b : Account) (q : ℚ) (d : Option String) (now : ℕ)
    (ha : a.is_active = true) (hb : b.is_active = true) (hq : 0 < q)
    (hbal : quantize2 q ≤ a.balance) :
    ∃ outT inT : Txn,
      Account.transfer_to a b q d now =
        (.ok outT,
         { a with balance := a.balance - quantize2 q
                  transactions := a.transactions ++ [outT] },
         { b with balance := b.balance + quantize2 q
                  transactions := b.transactions ++ [inT] })
      ∧ outT.type = "Transfer Out" ∧ outT.amount = quantize2 q
      ∧ inT.type = "Transfer In" ∧ inT.amount = quantize2 q := by
  refine ⟨Txn.init "Transfer Out" (quantize2 q) a.accountNumber
            (some (d.getD ("Transfer to " ++ b.accountNumber))) now,
          Txn.init "Transfer In" (quantize2 q) b.accountNumber
            (some (d.getD ("Transfer from " ++ a.accountNumber))) now,
          ?_, by simp [Txn.init], by simp [Txn.init], by simp [Txn.init], by simp [Txn.init]⟩
  unfold Account.transfer_to
  rw [if_neg (by simp [ha, hb]), if_neg (not_le.mpr hq), if_neg (not_lt.mpr hbal)]

/-- C2 witness: the spec's concrete scenario 3, a transfer of 200 from an
account holding 500 to one holding 50. -/
theorem c2_transfer_atomicity_witness :
    (0 : ℚ) < 200
    ∧ (∃ outT inT : Txn,
        Account.transfer_to (Account.init "A" 500 "Savings" none)
            (Account.init "B" 50 "Savings" none) 200 none 7 =
          (.ok outT,
           { Account.init "A" 500 "Savings" none with
               balance := (Account.init "A" 500 "Savings" none).balance - quantize2 200
               transactions := (Account.init "A" 500 "Savings" none).transactions ++ [outT] },
           { Account.init "B" 50 "Savings" none with
               balance := (Account.init "B" 50 "Savings" none).balance + quantize2 200
               transactions := (Account.init "B" 50 "Savings" none).transactions ++ [inT] })
        ∧ outT.type = "Transfer Out" ∧ outT.amount = quantize2 200
        ∧ inT.type = "Transfer In" ∧ inT.amount = quantize2 200) :=
  ⟨by norm_num,
   c2_transfer_atomicity (Account.init "A" 500 "Savings" none)
     (Account.init "B" 50 "Savings" none) 200 none 7
     rfl rfl (by norm_num)
     (by simp [Account.init]
         norm_num [quantize2, quantizeCents])⟩

/-- C3: starting from any account created with a nonnegative initial
balance, every sequence of successful public-mutator calls keeps the
balance nonnegative; and on an active account a withdrawal or transfer
request whose normalized amount exceeds the current (nonnegative) balance
fails with `InsufficientFunds` and returns with the account, its balance
and its log unchanged. -/
theorem c3_no_negative_balance :
    (∀ (num : String) (b0 : ℚ) (ty : String) (ow : Option String)
        (ops : List AccountOp) (a' : Account),
        0 ≤ b0 → runOps (Account.init num b0 ty ow) ops = some a' →
        0 ≤ a'.balance)
    ∧ (∀ (a : Account) (q : ℚ) (d : Option String) (now : ℕ),
        a.is_active = true → 0 ≤ a.balance → a.balance < quantize2 q →
        a.withdraw q d now = (.error .insufficientFunds, a))
    ∧ (∀ (a b : Account) (q : ℚ) (d : Option String) (now : ℕ),
        a.is_active = true → b.is_active = true → 0 ≤ a.balance →
        a.balance < quantize2 q →
        Account.transfer_to a b q d now = (.error .insufficientFunds, a, b)) := by
  refine ⟨?_, ?_, ?_⟩
  · intro num b0 ty ow ops a' hb0 h
    exact @runOps_preserves (fun a => 0 ≤ a.balance)
      (fun a op a' hPa happly => applyOp_balance_nonneg a op a' hPa happly)
      ops (Account.init num b0 ty ow) a'
      (by simpa [Account.init] using quantize2_nonneg hb0) h
  · intro a q d now ha h0 hlt
    have hq : 0 < q := pos_of_quantize2_pos (lt_of_le_of_lt h0 hlt)
    unfold Account.withdraw
    rw [if_neg (by simp [ha]), if_neg (not_le.mpr hq)]
    dsimp only
    rw [if_pos hlt]
  · intro a b q d now ha hb h0 hlt
    have hq : 0 < q := pos_of_quantize2_pos (lt_of_le_of_lt h0 hlt)
    unfold Account.transfer_to
    rw [if_neg (by simp [ha, hb]), if_neg (not_le.mpr hq)]
    dsimp only
    rw [if_pos hlt]

/-- C3 witness: the invariant clause at a concrete run (create at 5,
withdraw 3) and thereby a nonnegative final balance. -/
theorem c3_no_negative_balance_witness :
    (0 : ℚ) ≤ 5
    ∧ 0 ≤ ({ accountNumber := "A", balance := 2, account_type := "Savings",
             owner_id := none,
             transactions := [{ type := "Withdrawal", amount := 3, timestamp := 0,
                                account_number := "A", description := "y" }],
             is_active := true } : Account).balance :=
  ⟨by norm_num,
   c3_no_negative_balance.1 "A" 5 "Savings" none
     [AccountOp.withdrawOp 3 (some "y") 0] _
     (by norm_num)
     (by simp [runOps, applyOp, Account.withdraw, Account.init, Txn.init]
         norm_num [quantize2, quantizeCents])⟩

/-- C4: after `deactivate()`, the flag flip changes neither balance nor
log, and every deposit, withdrawal or transfer attempt touching the
deactivated account (as source, destination or both) fails with
`InactiveAccount` and returns every account unchanged. -/
theorem c4_inactive_rejection (a b : Account) (q : ℚ) (d : Option String) (now : ℕ) :
    (a.deactivate).balance = a.balance
    ∧ (a.deactivate).transactions = a.transactions
    ∧ (a.deactivate).deposit q d now = (.error .inactiveAccount, a.deactivate)
    ∧ (a.deactivate).withdraw q d now = (.error .inactiveAccount, a.deactivate)
    ∧ Account.transfer_to (a.deactivate) b q d now
        = (.error .inactiveAccount, a.deactivate, b)
    ∧ Account.transfer_to b (a.deactivate) q d now
        = (.error .inactiveAccount, b, a.deactivate)
    ∧ (a.deactivate).transfer_to_self q d now
        = (.error .inactiveAccount, a.deactivate) := by
  refine ⟨rfl, rfl, ?_, ?_, ?_, ?_, ?_⟩
  · unfold Account.deposit
    rw [if_pos (by simp [Account.deactivate])]
  · unfold Account.withdraw
    rw [if_pos (by simp [Account.deactivate])]
  · unfold Account.transfer_to
    rw [if_pos (by simp [Account.deactivate])]
  · unfold Account.transfer_to
    rw [if_pos (by simp [Account.deactivate])]
  · unfold Account.transfer_to_self
    rw [if_pos (by simp [Account.deactivate])]

theorem find_replace_hit (l : List (String × Account)) (k : String) (a : Account)
    (h : (l.find? (fun p => p.1 = k)).isSome = true) :
    ((l.map (fun p => if p.1 = k then (p.1, a) else p)).find?
        (fun p => p.1 = k)).map Prod.snd = some a := by
  induction l with
  | nil => simp at h
  | cons p l ih =>
    by_cases hp : p.1 = k
    · simp [List.find?_cons, hp]
    · rw [List.find?_cons_of_neg _ (by simp [hp])] at h
      simp only [List.map_cons]
      rw [if_neg hp, List.find?_cons_of_neg _ (by simp [hp])]
      exact ih h

theorem find_replace_ne (l : List (String × Account)) (k k' : String) (a : Account)
    (hk : k' ≠ k) :
    (l.map (fun p => if p.1 = k then (p.1, a) else p)).find? (fun p => p.1 = k')
      = l.find? (fun p => p.1 = k') := by
  induction l with
  | nil => simp
  | cons p l ih =>
    by_cases hp : p.1 = k'
    · have hpk : ¬ p.1 = k := by rw [hp]; exact hk
      simp only [List.map_cons]
      rw [if_neg hpk, List.find?_cons_of_pos _ (by simp [hp]),
        List.find?_cons_of_pos _ (by simp [hp])]
    · simp only [List.map_cons]
      by_cases hpk : p.1 = k
      · rw [if_pos hpk, List.find?_cons_of_neg _ (by simp [hp]),
          List.find?_cons_of_neg _ (by simp [hp])]
        exact ih
      · rw [if_neg hpk, List.find?_cons_of_neg _ (by simp [hp]),
          List.find?_cons_of_neg _ (by simp [hp])]
        exact ih

theorem Repo.any_key_of_find {r : Repo} {k : String} {x : Account}
    (h : r.find_by_account_number k = some x) :
    r.data.any (fun p => p.1 = k) = true := by
  unfold Repo.find_by_account_number at h
  cases hf : r.data.find? (fun p => p.1 = k) with
  | none => rw [hf] at h; simp at h
  | some pr =>
    have hmem := List.mem_of_find?_eq_some hf
    have hpred := List.find?_some hf
    simp at hpred
    exact List.any_eq_true.mpr ⟨pr, hmem, by simp [hpred]⟩

theorem Repo.find_update_self {r : Repo} (a : Account) {b : Account}
    (h : r.find_by_account_number a.accountNumber = some b) :
    (r.update a).1.find_by_account_number a.accountNumber = some a := by
  unfold Repo.update
  rw [if_pos (Repo.any_key_of_find h)]
  unfold Repo.find_by_account_number at h ⊢
  apply find_replace_hit
  cases hf : r.data.find? (fun p => p.1 = a.accountNumber) with
  | none => rw [hf] at h; simp at h
  | some pr => simp

theorem Repo.find_update_ne (r : Repo) (a : Account) (k : String)
    (hk : k ≠ a.accountNumber) :
    (r.update a).1.find_by_account_number k = r.find_by_account_number k := by
  unfold Repo.update
  by_cases hany : r.data.any (fun p => p.1 = a.accountNumber) = true
  · rw [if_pos hany]
    unfold Repo.find_by_account_number
    rw [find_replace_ne _ _ _ _ hk]
  · rw [if_neg hany]

theorem Repo.find_number {r : Repo} (hw : r.Wf) {k : String} {x : Account}
    (h : r.find_by_account_number k = some x) : x.accountNumber = k := by
  unfold Repo.find_by_account_number at h
  cases hf : r.data.find? (fun p => p.1 = k) with
  | none => rw [hf] at h; simp at h
  | some pr =>
    rw [hf] at h
    simp at h
    have hpred := List.find?_some hf
    simp at hpred
    have hwf := hw pr (List.mem_of_find?_eq_some hf)
    rw [← h, hwf, hpred]

/-- C5: `transfer_funds` fails with `SameAccount` when source id equals
destination id, with `AccountNotFound` when either side is missing, and
with `AccountInactive` when either side is inactive; in each failure case
the repository is returned exactly as it was (no balance or log of any
account changes); otherwise it delegates to the source account's
`transfer_to` and persists both updated accounts. -/
theorem c5_transfer_service_protocol :
    (∀ (r : Repo) (i : String) (q : ℚ) (d : Option String) (now : ℕ),
        transfer_funds r i i q d now = (.error .sameAccount, r))
    ∧ (∀ (r : Repo) (i j : String) (q : ℚ) (d : Option String) (now : ℕ),
        i ≠ j →
        (r.find_by_account_number i = none ∨ r.find_by_account_number j = none) →
        transfer_funds r i j q d now = (.error .accountNotFound, r))
    ∧ (∀ (r : Repo) (i j : String) (q : ℚ) (d : Option String) (now : ℕ)
         (fa ta : Account),
        i ≠ j →
        r.find_by_account_number i = some fa →
        r.find_by_account_number j = some ta →
        (fa.is_active = false ∨ ta.is_active = false) →
        transfer_funds r i j q d now = (.error .accountInactive, r))
    ∧ (∀ (r : Repo) (i j : String) (q : ℚ) (d : Option String) (now : ℕ)
         (fa ta : Account) (txn : Txn) (fa' ta' : Account),
        r.Wf → i ≠ j →
        r.find_by_account_number i = some fa →
        r.find_by_account_number j = some ta →
        fa.is_active = true → ta.is_active = true →
        Account.transfer_to fa ta q d now = (.ok txn, fa', ta') →
        (transfer_funds r i j q d now).1 = .ok txn
        ∧ (transfer_funds r i j q d now).2.find_by_account_number i = some fa'
        ∧ (transfer_funds r i j q d now).2.find_by_account_number j = some ta') := by
  refine ⟨?_, ?_, ?_, ?_⟩
  · intro r i q d now
    unfold transfer_funds
    rw [if_pos rfl]
  · intro r i j q d now hij hmiss
    unfold transfer_funds
    rw [if_neg hij]
    cases hfi : r.find_by_account_number i with
    | none => rfl
    | some fa =>
      cases hfj : r.find_by_account_number j with
      | none => rfl
      | some ta =>
        rcases hmiss with hm | hm
        · rw [hfi] at hm; exact absurd hm (by simp)
        · rw [hfj] at hm; exact absurd hm (by simp)
  · intro r i j q d now fa ta hij hfi hfj hinact
    unfold transfer_funds
    rw [if_neg hij, hfi, hfj]
    dsimp only
    by_cases hfa : fa.is_active = false
    · rw [if_pos hfa]
    · rw [if_neg hfa]
      rcases hinact with hm | hm
      · exact absurd hm hfa
      · rw [if_pos hm]
  · intro r i j q d now fa ta txn fa' ta' hw hij hfi hfj hfa hta htr
    have hshape := transfer_to_ok_shape htr
    have hfa'num : fa'.accountNumber = i := by
      rw [hshape.2.1]
      show fa.accountNumber = i
      exact Repo.find_number hw hfi
    have hta'num : ta'.accountNumber = j := by
      rw [hshape.2.2.1]
      show ta.accountNumber = j
      exact Repo.find_number hw hfj
    have heq : transfer_funds r i j q d now
        = (.ok txn, ((r.update fa').1.update ta').1) := by
      unfold transfer_funds
      rw [if_neg hij, hfi, hfj]
      dsimp only
      rw [if_neg (by rw [hfa]; simp), if_neg (by rw [hta]; simp), htr]
    have h1find : (r.update fa').1.find_by_account_number i = some fa' := by
      rw [← hfa'num] at hfi ⊢
      exact Repo.find_update_self fa' hfi
    have h1findj : (r.update fa').1.find_by_account_number j = some ta := by
      rw [← hfj]
      apply Repo.find_update_ne
      rw [hfa'num]
      exact fun hc => hij hc.symm
    refine ⟨by rw [heq], ?_, ?_⟩
    · rw [heq]
      show ((r.update fa').1.update ta').1.find_by_account_number i = some fa'
      rw [← h1find]
      apply Repo.find_update_ne
      rw [hta'num]
      exact hij
    · rw [heq]
      show ((r.update fa').1.update ta').1.find_by_account_number j = some ta'
      rw [← hta'num] at h1findj ⊢
      exact Repo.find_update_self ta' h1findj

/-- C5 witness: a concrete two-account repository, transferring 200 from
"A" (holding 500) to "B" (holding 50): the Transfer Out record is
returned and both updated accounts are persisted. -/
theorem c5_transfer_service_protocol_witness :
    (transfer_funds
        (Repo.mk [("A", Account.init "A" 500 "Savings" none),
                  ("B", Account.init "B" 50 "Savings" none)])
        "A" "B" 200 none 7).1
      = .ok (Txn.init "Transfer Out" (quantize2 200) "A" (some "Transfer to B") 7)
    ∧ (transfer_funds
        (Repo.mk [("A", Account.init "A" 500 "Savings" none),
                  ("B", Account.init "B" 50 "Savings" none)])
        "A" "B" 200 none 7).2.find_by_account_number "A"
      = some { Account.init "A" 500 "Savings" none with
                 balance := (Account.init "A" 500 "Savings" none).balance - quantize2 200
                 transactions := (Account.init "A" 500 "Savings" none).transactions
                   ++ [Txn.init "Transfer Out" (quantize2 200) "A"
                        (some "Transfer to B") 7] }
    ∧ (transfer_funds
        (Repo.mk [("A", Account.init "A" 500 "Savings" none),
                  ("B", Account.init "B" 50 "Savings" none)])
        "A" "B" 200 none 7).2.find_by_account_number "B"
      = some { Account.init "B" 50 "Savings" none with
                 balance := (Account.init "B" 50 "Savings" none).balance + quantize2 200
                 transactions := (Account.init "B" 50 "Savings" none).transactions
                   ++ [Txn.init "Transfer In" (quantize2 200) "B"
                        (some "Transfer from A") 7] } := by
  have htr : Account.transfer_to (Account.init "A" 500 "Savings" none)
      (Account.init "B" 50 "Savings" none) 200 none 7
      = (.ok (Txn.init "Transfer Out" (quantize2 200) "A" (some "Transfer to B") 7),
         { Account.init "A" 500 "Savings" none with
             balance := (Account.init "A" 500 "Savings" none).balance - quantize2 200
             transactions := (Account.init "A" 500 "Savings" none).transactions
               ++ [Txn.init "Transfer Out" (quantize2 200) "A"
                    (some "Transfer to B") 7] },
         { Account.init "B" 50 "Savings" none with
             balance := (Account.init "B" 50 "Savings" none).balance + quantize2 200
             transactions := (Account.init "B" 50 "Savings" none).transactions
               ++ [Txn.init "Transfer In" (quantize2 200) "B"
                    (some "Transfer from A") 7] }) := by
    unfold Account.transfer_to
    rw [if_neg (by simp [Account.init]), if_neg (by norm_num),
      if_neg (not_lt.mpr (by simp only [Account.init]; norm_num [quantize2, quantizeCents]))]
    rfl
  exact c5_transfer_service_protocol.2.2.2
    (Repo.mk [("A", Account.init "A" 500 "Savings" none),
              ("B", Account.init "B" 50 "Savings" none)])
    "A" "B" 200 none 7 _ _ _ _ _
    (by intro p hp
        simp at hp
        rcases hp with h | h <;> simp [h, Account.init])
    (by simp) rfl rfl rfl rfl htr

theorem tsDesc_trans (x y z : Txn) : tsDesc x y → tsDesc y z → tsDesc x z := by
  simp [tsDesc]
  omega

theorem tsDesc_total (x y : Txn) : tsDesc x y || tsDesc y x := by
  simp [tsDesc]
  omega

/-- C6 (amended): `get_transaction_history` returns the log's
transactions ordered newest-first (timestamps descending) for every
limit; with no limit it returns a permutation of the whole log (the call
is a pure function of the account, so the underlying log is never
mutated); a positive limit bounds the result to at most that many
records; and a limit of `0` — falsy in Python — returns the full history
exactly like `None`, rather than at most zero records. -/
theorem c6_history_contract (a : Account) (l : ℤ) :
    (∀ lo : Option ℤ,
      List.Pairwise (fun x y : Txn => y.timestamp ≤ x.timestamp)
        (a.get_transaction_history lo))
    ∧ (a.get_transaction_history none).Perm a.transactions
    ∧ (0 < l → ((a.get_transaction_history (some l)).length : ℤ) ≤ l)
    ∧ a.get_transaction_history (some 0) = a.get_transaction_history none := by
  have hsorted : List.Pairwise (fun x y : Txn => y.timestamp ≤ x.timestamp)
      (a.transactions.mergeSort tsDesc) := by
    have h := List.sorted_mergeSort
      (fun x y z hxy hyz => tsDesc_trans x y z hxy hyz)
      (fun x y => tsDesc_total x y) a.transactions
    exact h.imp (fun hxy => by simpa [tsDesc] using hxy)
  refine ⟨?_, ?_, ?_, ?_⟩
  · intro lo
    cases lo with
    | none => exact hsorted
    | some l' =>
      unfold Account.get_transaction_history
      dsimp only
      by_cases h0 : l' = 0
      · rw [if_pos h0]
        exact hsorted
      · rw [if_neg h0]
        unfold pySlice
        by_cases hpos : 0 ≤ l'
        · rw [if_pos hpos]
          exact hsorted.sublist (List.take_sublist _ _)
        · rw [if_neg hpos]
          exact hsorted.sublist (List.take_sublist _ _)
  · exact List.mergeSort_perm a.transactions tsDesc
  · intro hl
    unfold Account.get_transaction_history pySlice
    dsimp only
    rw [if_neg (by omega), if_pos (le_of_lt hl)]
    have := List.length_take_le l.toNat (a.transactions.mergeSort tsDesc)
    omega
  · rfl

/-- C6 counterexample: an account with one logged transaction and the
explicitly given limit value `0` gets back 1 transaction, not at most 0 —
Python's `sorted_transactions[:limit] if limit else sorted_transactions`
treats a limit of 0 as falsy and returns the entire history. -/
theorem c6_counterexample :
    (({ accountNumber := "A", balance := 3, account_type := "Savings",
        owner_id := none,
        transactions := [{ type := "Deposit", amount := 3, timestamp := 5,
                           account_number := "A", description := "x" }],
        is_active := true } : Account).get_transaction_history (some 0)).length
      = 1 := by
  simp [Account.get_transaction_history]

/-- C6 witness: a positive limit of 1 on the same single-transaction
account bounds the history length by 1. -/
theorem c6_history_contract_witness :
    (0 : ℤ) < 1
    ∧ ((({ accountNumber := "A", balance := 3, account_type := "Savings",
           owner_id := none,
           transactions := [{ type := "Deposit", amount := 3, timestamp := 5,
                              account_number := "A", description := "x" }],
           is_active := true } : Account).get_transaction_history
            (some 1)).length : ℤ) ≤ 1 :=
  ⟨by norm_num,
   (c6_history_contract
     { accountNumber := "A", balance := 3, account_type := "Savings",
       owner_id := none,
       transactions := [{ type := "Deposit", amount := 3, timestamp := 5,
                          account_number := "A", description := "x" }],
       is_active := true } 1).2.2.1 (by norm_num)⟩

theorem txnDict_roundtrip (t : Txn) : Txn.from_dict (Txn.to_dict t) = t := by
  simp [Txn.from_dict, Txn.to_dict, Txn.init]

theorem accountDict_roundtrip (a : Account) (c : ℤ)
    (h : a.balance = (c : ℚ) / 100) :
    Account.from_dict (Account.to_dict a) = a := by
  unfold Account.from_dict Account.to_dict Account.init
  cases a with
  | mk num bal ty ow ts act =>
    simp only at h
    simp only [h, quantize2_intCast_div, Account.mk.injEq, List.map_map,
      and_true, true_and]
    exact (List.map_congr_left (fun t ht => txnDict_roundtrip t)).trans
      (List.map_id ts)

/-- C7: saving a repository and loading the written snapshot into a fresh
repository instance reproduces the entity set exactly — in particular
every account's `accountNumber`, `balance` and transaction count are
identical — provided each stored balance is a whole number of cents, as
every balance produced by `Account.__init__` and the mutators is. -/
theorem c7_repository_round_trip (r : Repo)
    (hb : ∀ p ∈ r.data, ∃ c : ℤ, p.2.balance = (c : ℚ) / 100) :
    Repo.load_data (Repo.mk []) (.good (r.save_data)) = r := by
  unfold Repo.load_data Repo.save_data
  cases r with
  | mk data =>
    simp only [Repo.mk.injEq, List.map_map]
    refine (List.map_congr_left ?_).trans (List.map_id data)
    intro p hp
    obtain ⟨c, hc⟩ := hb p hp
    show (p.1, Account.from_dict (Account.to_dict p.2)) = p
    rw [accountDict_roundtrip p.2 c hc]

/-- C7 witness: a one-account repository round-trips exactly. -/
theorem c7_repository_round_trip_witness :
    Repo.load_data (Repo.mk [])
        (.good ((Repo.mk [("A", Account.init "A" 5 "Savings" none)]).save_data))
      = Repo.mk [("A", Account.init "A" 5 "Savings" none)] :=
  c7_repository_round_trip (Repo.mk [("A", Account.init "A" 5 "Savings" none)])
    (by intro p hp
        simp at hp
        refine ⟨500, ?_⟩
        rw [hp]
        show quantize2 5 = (500 : ℚ) / 100
        norm_num [quantize2, quantizeCents])

/-- C8 (amended): `load_data` never crashes; on a corrupt (unparseable)
file the caught exception resets the in-memory collection to empty; on a
missing file the method returns early and leaves the in-memory collection
exactly as it was — which is empty only for a fresh repository instance,
not in general. -/
theorem c8_load_failure_degradation (r : Repo) :
    (Repo.load_data r .corrupt).data = []
    ∧ Repo.load_data r .missing = r
    ∧ Repo.load_data (Repo.mk []) .missing = Repo.mk [] :=
  ⟨rfl, rfl, rfl⟩

/-- C8 counterexample: a repository that already holds an account and
whose backing file is missing keeps its non-empty in-memory collection
after `load_data`, so the claim's "results in an empty in-memory
collection" fails for the missing-file case. -/
theorem c8_counterexample :
    (Repo.load_data (Repo.mk [("A", Account.init "A" 0 "Savings" none)])
        FileState.missing).data ≠ []
    ∧ Repo.load_data (Repo.mk [("A", Account.init "A" 0 "Savings" none)])
        FileState.missing
      = Repo.mk [("A", Account.init "A" 0 "Savings" none)] :=
  ⟨by simp [Repo.load_data], rfl⟩

/-- C9 (amended): every transaction record appended by a successful
deposit, withdrawal or transfer carries exactly the half-up
normalization of the input amount, a value with exactly two decimal
places (a whole number of cents) that is always nonnegative; it is
strictly positive whenever the accepted input normalizes to a positive
value — in particular for every input of at least half a cent
(`1/200`), which covers all positive 2-decimal amounts.  The accepted
inputs strictly between 0 and half a cent are recorded as 0.00; see the
counterexample. -/
theorem c9_transaction_amount_positivity :
    (∀ (a : Account) (q : ℚ) (d : Option String) (now : ℕ) (txn : Txn)
       (a' : Account),
        a.deposit q d now = (.ok txn, a') →
        txn.amount = quantize2 q ∧ (∃ c : ℤ, txn.amount = (c : ℚ) / 100)
        ∧ 0 ≤ txn.amount ∧ (1 / 200 ≤ q → 0 < txn.amount))
    ∧ (∀ (a : Account) (q : ℚ) (d : Option String) (now : ℕ) (txn : Txn)
         (a' : Account),
        a.withdraw q d now = (.ok txn, a') →
        txn.amount = quantize2 q ∧ (∃ c : ℤ, txn.amount = (c : ℚ) / 100)
        ∧ 0 ≤ txn.amount ∧ (1 / 200 ≤ q → 0 < txn.amount))
    ∧ (∀ (a b : Account) (q : ℚ) (d : Option String) (now : ℕ) (txn : Txn)
         (a' b' : Account),
        Account.transfer_to a b q d now = (.ok txn, a', b') →
        txn.amount = quantize2 q ∧ (∃ c : ℤ, txn.amount = (c : ℚ) / 100)
        ∧ 0 ≤ txn.amount ∧ (1 / 200 ≤ q → 0 < txn.amount)
        ∧ ∃ inT : Txn, b'.transactions = b.transactions ++ [inT]
            ∧ inT.amount = quantize2 q) := by
  refine ⟨?_, ?_, ?_⟩
  · intro a q d now txn a' h
    obtain ⟨ht, -, -, hq⟩ := deposit_ok_shape h
    have hamt : txn.amount = quantize2 q := by rw [ht]; rfl
    exact ⟨hamt, ⟨quantizeCents q, by rw [hamt]; rfl⟩,
      hamt ▸ quantize2_nonneg (le_of_lt hq),
      fun hhalf => hamt ▸ quantize2_pos hhalf⟩
  · intro a q d now txn a' h
    obtain ⟨ht, -, -, hq, -⟩ := withdraw_ok_shape h
    have hamt : txn.amount = quantize2 q := by rw [ht]; rfl
    exact ⟨hamt, ⟨quantizeCents q, by rw [hamt]; rfl⟩,
      hamt ▸ quantize2_nonneg (le_of_lt hq),
      fun hhalf => hamt ▸ quantize2_pos hhalf⟩
  · intro a b q d now txn a' b' h
    obtain ⟨ht, -, hb', -, -, hq, -⟩ := transfer_to_ok_shape h
    have hamt : txn.amount = quantize2 q := by rw [ht]; rfl
    refine ⟨hamt, ⟨quantizeCents q, by rw [hamt]; rfl⟩,
      hamt ▸ quantize2_nonneg (le_of_lt hq),
      fun hhalf => hamt ▸ quantize2_pos hhalf, ?_⟩
    refine ⟨Txn.init "Transfer In" (quantize2 q) b.accountNumber
      (some (d.getD ("Transfer from " ++ a.accountNumber))) now, ?_, rfl⟩
    rw [hb']

/-- C9 counterexample: `deposit(0.001)` on an active account passes the
`amount <= 0` guard (0.001 is positive) but the recorded, normalized
amount is 0.00 — a successfully appended transaction with amount not
strictly positive. -/
theorem c9_counterexample :
    ((Account.init "A" 0 "Savings" none).deposit (1 / 1000) (some "d") 0).1
      = .ok (Txn.init "Deposit" (quantize2 (1 / 1000)) "A" (some "d") 0)
    ∧ quantize2 (1 / 1000) = 0 := by
  constructor
  · unfold Account.deposit
    rw [if_neg (by simp [Account.init]), if_neg (by norm_num)]
    rfl
  · unfold quantize2 quantizeCents
    norm_num

/-- C9 witness: a concrete deposit of 100 whose recorded amount is the
normalized 100, a nonnegative whole number of cents, strictly positive. -/
theorem c9_transaction_amount_positivity_witness :
    (Txn.init "Deposit" (quantize2 100) "A" (some "x") 0).amount = quantize2 100
    ∧ (∃ c : ℤ, (Txn.init "Deposit" (quantize2 100) "A" (some "x") 0).amount
        = (c : ℚ) / 100)
    ∧ 0 ≤ (Txn.init "Deposit" (quantize2 100) "A" (some "x") 0).amount
    ∧ ((1 : ℚ) / 200 ≤ 100 →
        0 < (Txn.init "Deposit" (quantize2 100) "A" (some "x") 0).amount) :=
  c9_transaction_amount_positivity.1 (Account.init "A" 0 "Savings" none) 100
    (some "x") 0
    (Txn.init "Deposit" (quantize2 100) "A" (some "x") 0)
    { Account.init "A" 0 "Savings" none with
        balance := (Account.init "A" 0 "Savings" none).balance + quantize2 100
        transactions := (Account.init "A" 0 "Savings" none).transactions
          ++ [Txn.init "Deposit" (quantize2 100) "A" (some "x") 0] }
    (by unfold Account.deposit
        rw [if_neg (by simp [Account.init]), if_neg (by norm_num)]
        rfl)

/-- C10: a self-transfer at the Account level is not guarded: for an
active account and an amount normalizing to a positive value within the
balance, `a.transfer_to(a, x)` succeeds (no same-account error — only
`TransactionService.transfer_funds` rejects that), the balance is
unchanged, and exactly two records — a Transfer Out followed by a
Transfer In, both of the normalized amount — are appended to the log. -/
theorem c10_self_transfer_unguarded (a : Account) (q : ℚ) (d : Option String)
    (now : ℕ) (ha : a.is_active = true) (hpos : 0 < quantize2 q)
    (hbal : quantize2 q ≤ a.balance) :
    ∃ outT inT : Txn,
      a.transfer_to_self q d now
        = (.ok outT, { a with transactions := a.transactions ++ [outT, inT] })
      ∧ outT.type = "Transfer Out" ∧ outT.amount = quantize2 q
      ∧ inT.type = "Transfer In" ∧ inT.amount = quantize2 q := by
  have hq : 0 < q := pos_of_quantize2_pos hpos
  refine ⟨Txn.init "Transfer Out" (quantize2 q) a.accountNumber
            (some (d.getD ("Transfer to " ++ a.accountNumber))) now,
          Txn.init "Transfer In" (quantize2 q) a.accountNumber
            (some (d.getD ("Transfer from " ++ a.accountNumber))) now,
          ?_, by simp [Txn.init], by simp [Txn.init], by simp [Txn.init],
          by simp [Txn.init]⟩
  unfold Account.transfer_to_self
  rw [if_neg (by simp [ha]), if_neg (not_le.mpr hq), if_neg (not_lt.mpr hbal)]
  have hcancel : a.balance - quantize2 q + quantize2 q = a.balance := by ring
  simp [hcancel]

/-- C10 witness: a self-transfer of 4 on an active account holding 10
succeeds, leaves the balance at 10 and appends the Transfer Out and
Transfer In pair. -/
theorem c10_self_transfer_unguarded_witness :
    0 < quantize2 4
    ∧ (∃ outT inT : Txn,
        (Account.init "A" 10 "Savings" none).transfer_to_self 4 none 3
          = (.ok outT,
             { Account.init "A" 10 "Savings" none with
                 transactions := (Account.init "A" 10 "Savings" none).transactions
                   ++ [outT, inT] })
        ∧ outT.type = "Transfer Out" ∧ outT.amount = quantize2 4
        ∧ inT.type = "Transfer In" ∧ inT.amount = quantize2 4) :=
  ⟨by norm_num [quantize2, quantizeCents],
   c10_self_transfer_unguarded (Account.init "A" 10 "Savings" none) 4 none 3
     rfl (by norm_num [quantize2, quantizeCents])
     (by show quantize2 4 ≤ quantize2 10
         norm_num [quantize2, quantizeCents])⟩
